import Mathlib

/-!
Verification of the streaming ClinVar record extractor
(`src/data_generation/clinvar.py`).

The extractor walks a large XML document with `lxml.etree.iterparse`,
and for each closed `VariationArchive` element (a "record") applies a
fixed set of per-field lookups (`find` / `findall` with relative
ElementPath expressions, attribute reads, text reads) to produce one
12-column CSV row, then reclaims the record's subtree.

We shallowly embed the XML tree, the ElementPath subset the script
uses, and the per-record extraction, and prove the spec's claims
about them.
-/

/-- An XML element: tag name, attribute list (unique keys, document
order), the element's own text (lxml `.text`, text before the first
child, `None` when absent), and the child elements in document order. -/
inductive XMLNode where
  | mk (tag : String) (attrs : List (String × String)) (text : Option String)
       (children : List XMLNode)
deriving Repr

def XMLNode.tag : XMLNode → String
  | .mk t _ _ _ => t

def XMLNode.attrs : XMLNode → List (String × String)
  | .mk _ a _ _ => a

def XMLNode.text : XMLNode → Option String
  | .mk _ _ tx _ => tx

def XMLNode.children : XMLNode → List XMLNode
  | .mk _ _ _ cs => cs

/-- lxml `elem.get(attr)`: the attribute's value, `None` when the
attribute is absent. -/
def XMLNode.get (n : XMLNode) (a : String) : Option String :=
  (n.attrs.find? (fun p => p.1 == a)).map (fun p => p.2)

mutual

/-- All proper descendants of a node, in document (preorder) order. -/
def XMLNode.descendants : XMLNode → List XMLNode
  | .mk _ _ _ cs => descList cs

/-- Concatenation of each listed node with its descendants, preorder. -/
def descList : List XMLNode → List XMLNode
  | [] => []
  | c :: cs => c :: XMLNode.descendants c ++ descList cs

end

/-- One step of the ElementPath subset used by the script:
`child t` is a `/t` location step, `desc t` is a `//t` step
(all descendants tagged `t`, in document order), and `descAttr t a v`
is a `//t[@a='v']` step. -/
inductive Step where
  | child (tag : String)
  | desc (tag : String)
  | descAttr (tag : String) (a : String) (v : String)
deriving Repr

/-- Candidate nodes produced by one path step from one context node,
in document order (matching lxml's ElementPath evaluation). -/
def applyStep (n : XMLNode) : Step → List XMLNode
  | .child t => n.children.filter (fun c => c.tag == t)
  | .desc t => n.descendants.filter (fun c => c.tag == t)
  | .descAttr t a v =>
      n.descendants.filter (fun c => c.tag == t && c.get a == some v)

/-- ElementPath evaluation: thread the candidate set through the steps
(each step expands every candidate, keeping document order). -/
def findallSteps : List XMLNode → List Step → List XMLNode
  | ns, [] => ns
  | ns, s :: rest => findallSteps (ns.flatMap (fun n => applyStep n s)) rest

/-- lxml `elem.findall(path)` for the path subset used by the script:
all matches, relative to `n`, in document order. -/
def XMLNode.findall (n : XMLNode) (p : List Step) : List XMLNode :=
  findallSteps [n] p

/-- lxml `elem.find(path)`: the first match in document order, else
`None`. -/
def XMLNode.find (n : XMLNode) (p : List Step) : Option XMLNode :=
  (n.findall p).head?

/-- Source `get_text(elem, path)`: `found.text if found is not None
else None`. -/
def get_text (elem : XMLNode) (path : List Step) : Option String :=
  (elem.find path).bind XMLNode.text

/-- Source `get_attr(elem, path, attr)`: `found.get(attr) if found is
not None else None`. -/
def get_attr (elem : XMLNode) (path : List Step) (attr : String) : Option String :=
  (elem.find path).bind (fun n => n.get attr)

/-! ### The per-field extraction, translated loop by loop from the
per-record body of `clinvar.py`. -/

/-- `va.get("VariationID")`. -/
def variationIdOf (va : XMLNode) : Option String :=
  va.get "VariationID"

/-- `get_text(va, "Species")`. -/
def speciesOf (va : XMLNode) : Option String :=
  get_text va [Step.child "Species"]

/-- `get_attr(va, ".//GeneList/Gene", "Symbol")`. -/
def geneOf (va : XMLNode) : Option String :=
  get_attr va [Step.desc "GeneList", Step.child "Gene"] "Symbol"

/-- `get_text(va, ".//SimpleAllele/VariantType")`. -/
def variantTypeOf (va : XMLNode) : Option String :=
  get_text va [Step.desc "SimpleAllele", Step.child "VariantType"]

/-- `get_attr(va, ".//MolecularConsequence", "Type")`. -/
def consequenceOf (va : XMLNode) : Option String :=
  get_attr va [Step.desc "MolecularConsequence"] "Type"

/-- The `for loc in va.findall(".//SequenceLocation")` loop: starting
from `chrom = None, pos = None`, on the first location whose
`Assembly` attribute equals `"GRCh38"` read `Chr` and `start` from it
and `break`. -/
def grch38Scan : List XMLNode → Option String × Option String
  | [] => (none, none)
  | l :: rest =>
      if l.get "Assembly" == some "GRCh38" then (l.get "Chr", l.get "start")
      else grch38Scan rest

/-- The path `.//SequenceLocation`. -/
def seqLocPath : List Step := [Step.desc "SequenceLocation"]

def chromOf (va : XMLNode) : Option String :=
  (grch38Scan (va.findall seqLocPath)).1

def posOf (va : XMLNode) : Option String :=
  (grch38Scan (va.findall seqLocPath)).2

/-- The `for x in va.findall(".//XRef")` loop for `rs_id`: on the
first cross-reference with `DB == "dbSNP"` read `ID` and `break`. -/
def rsIdScan : List XMLNode → Option String
  | [] => none
  | x :: rest =>
      if x.get "DB" == some "dbSNP" then x.get "ID" else rsIdScan rest

/-- The path `.//XRef`. -/
def xrefPath : List Step := [Step.desc "XRef"]

def rsIdOf (va : XMLNode) : Option String :=
  rsIdScan (va.findall xrefPath)

/-- `get_text(va, ".//Classifications/GermlineClassification/Description")`. -/
def clinicalSigOf (va : XMLNode) : Option String :=
  get_text va
    [Step.desc "Classifications", Step.child "GermlineClassification",
     Step.child "Description"]

/-- The `for ev in va.findall(".//Trait[@Type='Disease']//ElementValue")`
loop: on the first element value with `Type == "Preferred"` read its
text and `break`. -/
def diseaseScan : List XMLNode → Option String
  | [] => none
  | ev :: rest =>
      if ev.get "Type" == some "Preferred" then ev.text else diseaseScan rest

/-- The path `.//Trait[@Type='Disease']//ElementValue`. -/
def diseaseEvPath : List Step :=
  [Step.descAttr "Trait" "Type" "Disease", Step.desc "ElementValue"]

def diseaseNameOf (va : XMLNode) : Option String :=
  diseaseScan (va.findall diseaseEvPath)

/-- `get_text(va, ".//Gene/OMIM")`. -/
def mimGeneOf (va : XMLNode) : Option String :=
  get_text va [Step.desc "Gene", Step.child "OMIM"]

/-- The second `for x in va.findall(".//XRef")` loop: on the first
cross-reference with `DB == "OMIM"` and `Type == "MIM"` read `ID`
and `break`. -/
def mimDiseaseScan : List XMLNode → Option String
  | [] => none
  | x :: rest =>
      if x.get "DB" == some "OMIM" && x.get "Type" == some "MIM" then x.get "ID"
      else mimDiseaseScan rest

def mimDiseaseOf (va : XMLNode) : Option String :=
  mimDiseaseScan (va.findall xrefPath)

/-- The header row written before any record:
`writer.writerow([...])`. -/
def header : List String :=
  ["variation_id", "rs_id", "gene", "variant_type", "consequence",
   "chromosome", "position", "clinical_sig", "disease_name", "species",
   "mim_gene", "mim_disease"]

/-- The per-record row, in the order of the per-record
`writer.writerow([...])` call. -/
def extract_row (va : XMLNode) : List (Option String) :=
  [variationIdOf va, rsIdOf va, geneOf va, variantTypeOf va,
   consequenceOf va, chromOf va, posOf va, clinicalSigOf va,
   diseaseNameOf va, speciesOf va, mimGeneOf va, mimDiseaseOf va]

/-! ### The declarative rule evaluator, following the spec's words
(§3 "Field Rule", §4.2 "Field Rule Engine"), to be compared with the
per-field code above (refinement claim). -/

/-- Value source of a field rule: element text or a named attribute. -/
inductive ValueSource where
  | text
  | attr (name : String)
deriving Repr

/-- A declarative field rule, following the spec's words: output
column name, relative sub-path from the record root (empty list = the
record root itself), a filter — a conjunction of attribute
equalities, the empty conjunction meaning plain first-match — and a
value source. -/
structure FieldRule where
  column : String
  path : List Step
  filter : List (String × String)
  source : ValueSource
deriving Repr

/-- The filter predicate of a rule, evaluated on one candidate node. -/
def rulePred (r : FieldRule) (n : XMLNode) : Bool :=
  r.filter.all (fun pr => n.get pr.1 == some pr.2)

/-- Extract the rule's value from the selected node. -/
def ruleValue (r : FieldRule) (n : XMLNode) : Option String :=
  match r.source with
  | .text => n.text
  | .attr a => n.get a

/-- The generic evaluator, following the spec's words: resolve the
sub-path relative to the record root, scan the candidates in document
order for the first one satisfying the filter, and extract the value
from it; null when no candidate satisfies the filter or the selected
node lacks the requested attribute or text. -/
def evalRule (va : XMLNode) (r : FieldRule) : Option String :=
  ((va.findall r.path).find? (rulePred r)).bind (ruleValue r)

/-- Run an ordered rule list against one record: one value per rule,
in rule order. -/
def evalRules (rules : List FieldRule) (va : XMLNode) : List (Option String) :=
  rules.map (evalRule va)

/-- The ClinVar rule list, the declarative form of the script's
hard-coded per-field extraction. -/
def clinvarRules : List FieldRule :=
  [⟨"variation_id", [], [], .attr "VariationID"⟩,
   ⟨"rs_id", xrefPath, [("DB", "dbSNP")], .attr "ID"⟩,
   ⟨"gene", [Step.desc "GeneList", Step.child "Gene"], [], .attr "Symbol"⟩,
   ⟨"variant_type", [Step.desc "SimpleAllele", Step.child "VariantType"], [],
    .text⟩,
   ⟨"consequence", [Step.desc "MolecularConsequence"], [], .attr "Type"⟩,
   ⟨"chromosome", seqLocPath, [("Assembly", "GRCh38")], .attr "Chr"⟩,
   ⟨"position", seqLocPath, [("Assembly", "GRCh38")], .attr "start"⟩,
   ⟨"clinical_sig",
    [Step.desc "Classifications", Step.child "GermlineClassification",
     Step.child "Description"], [], .text⟩,
   ⟨"disease_name", diseaseEvPath, [("Type", "Preferred")], .text⟩,
   ⟨"species", [Step.child "Species"], [], .text⟩,
   ⟨"mim_gene", [Step.desc "Gene", Step.child "OMIM"], [], .text⟩,
   ⟨"mim_disease", xrefPath, [("DB", "OMIM"), ("Type", "MIM")], .attr "ID"⟩]

/-! ### Retained-node accounting for the reclamation idiom. -/

mutual

/-- Number of nodes in a subtree. -/
def nodeCount : XMLNode → Nat
  | .mk _ _ _ cs => 1 + nodeCountList cs

def nodeCountList : List XMLNode → Nat
  | [] => 0
  | c :: cs => nodeCount c + nodeCountList cs

end

/-- Retained-node accounting of the streaming traversal, modelling
the reclamation idiom at the end of the per-record loop
(`va.clear()` followed by `while va.getprevious() is not None:
del va.getparent()[0]`). When a record's root closes, the retained
nodes are: the document root (1), the already-closed record-level
siblings still attached (`leftover`: the cleared previous record
root — 0 before the first record, 1 after each cleanup, since
`clear` empties the current record but its root element stays
attached until the next record's sibling-deletion loop removes it),
and the freshly parsed record's own subtree. The list holds this
per-record peak retained count, in record order. -/
def retainedTrace : Nat → List XMLNode → List Nat
  | _, [] => []
  | leftover, r :: rest => (1 + leftover + nodeCount r) :: retainedTrace 1 rest

/-! ### The streaming run with truncation. -/

/-- Result of one extraction run: normal completion, or the
`TruncatedInput` failure; both carry the rows emitted, in order. -/
inductive RunResult where
  | ok (rows : List (List (Option String)))
  | truncatedInput (rows : List (List (Option String)))
deriving Repr

/-- Modelled from the spec: the streaming run over a possibly
truncated stream. The parser's truncation behaviour is not itself in
`src/` (the script's `iterparse` loop lets the stream reader's
failure propagate); following the spec's words, the input is the
sequence of records that close completely, plus a flag marking a
stream that ends mid-record. Each completed record's row is emitted
as the record closes; a stream ending mid-record fails with
`TruncatedInput` after all complete records' rows were emitted and
emits no row for the partial record. -/
def runExtractor : List XMLNode → Bool → RunResult
  | [], false => .ok []
  | [], true => .truncatedInput []
  | r :: rest, endsMidRecord =>
      match runExtractor rest endsMidRecord with
      | .ok rows => .ok (extract_row r :: rows)
      | .truncatedInput rows => .truncatedInput (extract_row r :: rows)

/-! ### Concrete elements and records used to instantiate theorems. -/

/-- A childless, textless element with the given attributes. -/
def leafA (tag : String) (attrs : List (String × String)) : XMLNode :=
  XMLNode.mk tag attrs none []

/-- The spec §8 concrete-scenario record: root id "5", a dbSNP and an
OMIM/MIM cross-reference, and a GRCh38 plus a GRCh37 sequence
location. -/
def c1rec : XMLNode :=
  XMLNode.mk "VariationArchive" [("VariationID", "5")] none
    [leafA "XRef" [("DB", "dbSNP"), ("ID", "rs999")],
     leafA "XRef" [("DB", "OMIM"), ("Type", "MIM"), ("ID", "12345")],
     leafA "SequenceLocation"
       [("Assembly", "GRCh38"), ("Chr", "7"), ("start", "1000")],
     leafA "SequenceLocation"
       [("Assembly", "GRCh37"), ("Chr", "7"), ("start", "900")]]

/-- Three cross-reference candidates: the filter (database = dbSNP)
holds only for the second. -/
def xrefOther : XMLNode := leafA "XRef" [("DB", "OMIM"), ("ID", "600000")]

def xrefSnp : XMLNode := leafA "XRef" [("DB", "dbSNP"), ("ID", "rs2")]

def xrefThird : XMLNode := leafA "XRef" [("DB", "dbSNP"), ("ID", "rs3")]

/-- A record with no nodes at all below the root: every sub-path
misses. -/
def emptyRec : XMLNode := XMLNode.mk "VariationArchive" [] none []

/-- A GRCh38 sequence location that lacks the `Chr` and `start`
attributes. -/
def gapLoc1 : XMLNode := leafA "SequenceLocation" [("Assembly", "GRCh38")]

/-- A later GRCh38 sequence location that carries both attributes. -/
def gapLoc2 : XMLNode :=
  leafA "SequenceLocation" [("Assembly", "GRCh38"), ("Chr", "9"), ("start", "42")]

/-- A record whose first GRCh38 sequence location lacks the `Chr` and
`start` attributes, while a later GRCh38 location carries both. -/
def gapRec : XMLNode :=
  XMLNode.mk "VariationArchive" [] none [gapLoc1, gapLoc2]

/-- The spec's reference column set (§6), which does not include a
species column. -/
def specColumns : List String :=
  ["variation_id", "rs_id", "gene", "variant_type", "consequence",
   "chromosome", "position", "clinical_sig", "disease_name",
   "mim_gene", "mim_disease"]

/-- A record containing one cross-reference child, for the scope
witness. -/
def scopeRec : XMLNode :=
  XMLNode.mk "VariationArchive" [] none [xrefSnp]

/-! ### Helper lemmas: each break-on-first-match loop computes
"first candidate satisfying the predicate, in document order". -/

theorem rsIdScan_eq_find (cs : List XMLNode) :
    rsIdScan cs =
      (cs.find? (fun x => x.get "DB" == some "dbSNP")).bind (fun x => x.get "ID") := by
  induction cs with
  | nil => rfl
  | cons x rest ih =>
      by_cases h : (x.get "DB" == some "dbSNP") = true
      · simp [rsIdScan, List.find?_cons_of_pos _ h, h]
      · rw [rsIdScan, if_neg (by simp [h]), List.find?_cons_of_neg _ (by simp [h]), ih]

theorem diseaseScan_eq_find (cs : List XMLNode) :
    diseaseScan cs =
      (cs.find? (fun ev => ev.get "Type" == some "Preferred")).bind XMLNode.text := by
  induction cs with
  | nil => rfl
  | cons x rest ih =>
      by_cases h : (x.get "Type" == some "Preferred") = true
      · simp [diseaseScan, List.find?_cons_of_pos _ h, h]
      · rw [diseaseScan, if_neg (by simp [h]), List.find?_cons_of_neg _ (by simp [h]), ih]

theorem mimDiseaseScan_eq_find (cs : List XMLNode) :
    mimDiseaseScan cs =
      (cs.find? (fun x => x.get "DB" == some "OMIM" && x.get "Type" == some "MIM")).bind
        (fun x => x.get "ID") := by
  induction cs with
  | nil => rfl
  | cons x rest ih =>
      by_cases h : (x.get "DB" == some "OMIM" && x.get "Type" == some "MIM") = true
      · simp [mimDiseaseScan, List.find?_cons_of_pos _ h, h]
      · rw [mimDiseaseScan, if_neg (by simp [h]), List.find?_cons_of_neg _ (by simp [h]), ih]

theorem grch38Scan_eq_find (cs : List XMLNode) :
    grch38Scan cs =
      match cs.find? (fun l => l.get "Assembly" == some "GRCh38") with
      | none => (none, none)
      | some l => (l.get "Chr", l.get "start") := by
  induction cs with
  | nil => rfl
  | cons x rest ih =>
      by_cases h : (x.get "Assembly" == some "GRCh38") = true
      · simp [grch38Scan, List.find?_cons_of_pos _ h, h]
      · rw [grch38Scan, if_neg (by simp [h]), List.find?_cons_of_neg _ (by simp [h]), ih]

/-! ### Scope machinery: everything a path yields lies inside the
record's own subtree. -/

theorem mem_descList_of_mem {c : XMLNode} :
    ∀ {cs : List XMLNode}, c ∈ cs → c ∈ descList cs := by
  intro cs h
  induction cs with
  | nil => cases h
  | cons d ds ih =>
      rw [descList]
      cases h with
      | head => exact List.mem_cons_self _ _
      | tail _ h2 => exact List.mem_cons_of_mem _ (List.mem_append_right _ (ih h2))

mutual

theorem descendants_trans : ∀ (n m x : XMLNode),
    m ∈ n.descendants → x ∈ m.descendants → x ∈ n.descendants
  | .mk _ _ _ cs, m, x, hm, hx => by
      have h := descList_trans cs m x (by simpa [XMLNode.descendants] using hm) hx
      simpa [XMLNode.descendants] using h

theorem descList_trans : ∀ (cs : List XMLNode) (m x : XMLNode),
    m ∈ descList cs → x ∈ m.descendants → x ∈ descList cs
  | [], _, _, hm, _ => by cases hm
  | c :: cs, m, x, hm, hx => by
      simp only [descList, List.mem_cons, List.mem_append] at hm ⊢
      rcases hm with (rfl | hm) | hm
      · left; right; exact hx
      · left; right; exact descendants_trans c m x hm hx
      · right; exact descList_trans cs m x hm hx

end

theorem children_mem_descendants {n x : XMLNode} (h : x ∈ n.children) :
    x ∈ n.descendants := by
  cases n with
  | mk t a tx cs =>
      simpa [XMLNode.descendants] using
        mem_descList_of_mem (by simpa [XMLNode.children] using h)

theorem applyStep_mem {n : XMLNode} {s : Step} {x : XMLNode}
    (h : x ∈ applyStep n s) : x ∈ n.descendants := by
  cases s with
  | child t => exact children_mem_descendants (List.mem_of_mem_filter h)
  | desc t => exact List.mem_of_mem_filter h
  | descAttr t a v => exact List.mem_of_mem_filter h

theorem findallSteps_scope : ∀ (p : List Step) (ns : List XMLNode) (va : XMLNode),
    (∀ m ∈ ns, m = va ∨ m ∈ va.descendants) →
    ∀ x ∈ findallSteps ns p, x = va ∨ x ∈ va.descendants := by
  intro p
  induction p with
  | nil =>
      intro ns va h x hx
      exact h x (by simpa [findallSteps] using hx)
  | cons s rest ih =>
      intro ns va h x hx
      rw [findallSteps] at hx
      refine ih _ va ?_ x hx
      intro m hm
      rw [List.mem_flatMap] at hm
      obtain ⟨n, hn, hmn⟩ := hm
      have hd := applyStep_mem hmn
      rcases h n hn with rfl | hn2
      · right; exact hd
      · right; exact descendants_trans va n m hn2 hd

theorem grch38Scan_fst (cs : List XMLNode) :
    (grch38Scan cs).1 =
      (cs.find? (fun l => l.get "Assembly" == some "GRCh38")).bind
        (fun l => l.get "Chr") := by
  rw [grch38Scan_eq_find]
  cases cs.find? (fun l => l.get "Assembly" == some "GRCh38") <;> rfl

theorem grch38Scan_snd (cs : List XMLNode) :
    (grch38Scan cs).2 =
      (cs.find? (fun l => l.get "Assembly" == some "GRCh38")).bind
        (fun l => l.get "start") := by
  rw [grch38Scan_eq_find]
  cases cs.find? (fun l => l.get "Assembly" == some "GRCh38") <;> rfl

theorem find?_const_true (cs : List XMLNode) :
    cs.find? (fun _ => true) = cs.head? := by
  cases cs with
  | nil => rfl
  | cons x rest => exact List.find?_cons_of_pos _ rfl

theorem rulePred_nil (c : String) (p : List Step) (s : ValueSource) :
    rulePred ⟨c, p, [], s⟩ = fun _ => true := rfl

theorem rulePred_single (c : String) (p : List Step) (s : ValueSource)
    (a v : String) :
    rulePred ⟨c, p, [(a, v)], s⟩ = fun n => n.get a == some v := by
  funext n
  simp [rulePred]

theorem rulePred_pair (c : String) (p : List Step) (s : ValueSource)
    (a1 v1 a2 v2 : String) :
    rulePred ⟨c, p, [(a1, v1), (a2, v2)], s⟩ =
      fun n => n.get a1 == some v1 && n.get a2 == some v2 := by
  funext n
  simp [rulePred]

theorem evalRule_nofilter (va : XMLNode) (c : String) (p : List Step)
    (s : ValueSource) :
    evalRule va ⟨c, p, [], s⟩ =
      (va.findall p).head?.bind (ruleValue ⟨c, p, [], s⟩) := by
  rw [evalRule, rulePred_nil, find?_const_true]

theorem find?_first_sat {p : XMLNode → Bool} :
    ∀ (pre : List XMLNode) (l : XMLNode) (post : List XMLNode),
    (∀ m ∈ pre, p m = false) → p l = true →
    (pre ++ l :: post).find? p = some l := by
  intro pre
  induction pre with
  | nil => intro l post _ hl; exact List.find?_cons_of_pos _ hl
  | cons a as ih =>
      intro l post hpre hl
      rw [List.cons_append,
          List.find?_cons_of_neg _ (by simp [hpre a (List.mem_cons_self a as)])]
      exact ih l post (fun m hm => hpre m (List.mem_cons_of_mem _ hm)) hl

theorem retainedTrace_bound :
    ∀ (records : List XMLNode) (leftover : Nat), leftover ≤ 1 →
    ∀ p ∈ retainedTrace leftover records,
    p ≤ 2 + (records.map nodeCount).foldr max 0 := by
  intro records
  induction records with
  | nil => intro leftover _ p hp; simp [retainedTrace] at hp
  | cons r rest ih =>
      intro leftover hl p hp
      rw [retainedTrace] at hp
      rcases List.mem_cons.mp hp with rfl | hp
      · have h1 : nodeCount r ≤ max (nodeCount r) ((rest.map nodeCount).foldr max 0) :=
          le_max_left _ _
        simp only [List.map_cons, List.foldr_cons]
        omega
      · have h2 := ih 1 le_rfl p hp
        have h3 : (rest.map nodeCount).foldr max 0 ≤
            max (nodeCount r) ((rest.map nodeCount).foldr max 0) := le_max_right _ _
        simp only [List.map_cons, List.foldr_cons]
        omega

/-! ### Claim theorems. -/

/-- C1: on the spec's concrete scenario record — root id "5", a dbSNP
cross-reference rs999, an OMIM/MIM cross-reference 12345, a GRCh38
location (chr 7, start 1000) and a GRCh37 location (chr 7, start
900) — the emitted row has variation_id "5", rs_id "rs999",
chromosome "7", position "1000" and mim_disease "12345", the GRCh37
location being ignored. -/
theorem c1_concrete_row :
    extract_row c1rec =
      [some "5", some "rs999", none, none, none, some "7", some "1000",
       none, none, none, none, some "12345"] := by
  decide

/-- C2: every filtered-first-match loop of the extractor selects the
first candidate in document order satisfying its predicate (null when
none does); in particular, with three or more candidates and the
predicate holding only for the second, the second one's value is
extracted. -/
theorem filtered_first_semantics :
    (∀ cs : List XMLNode,
        rsIdScan cs =
          (cs.find? (fun x => x.get "DB" == some "dbSNP")).bind
            (fun x => x.get "ID")) ∧
    (∀ cs : List XMLNode,
        diseaseScan cs =
          (cs.find? (fun ev => ev.get "Type" == some "Preferred")).bind
            XMLNode.text) ∧
    (∀ cs : List XMLNode,
        mimDiseaseScan cs =
          (cs.find? (fun x =>
              x.get "DB" == some "OMIM" && x.get "Type" == some "MIM")).bind
            (fun x => x.get "ID")) ∧
    (∀ (a b c : XMLNode) (rest : List XMLNode),
        (a.get "DB" == some "dbSNP") = false →
        (b.get "DB" == some "dbSNP") = true →
        rsIdScan (a :: b :: c :: rest) = b.get "ID") ∧
    (∀ cs : List XMLNode,
        cs.find? (fun x => x.get "DB" == some "dbSNP") = none →
        rsIdScan cs = none) := by
  refine ⟨rsIdScan_eq_find, diseaseScan_eq_find, mimDiseaseScan_eq_find, ?_, ?_⟩
  · intro a b c rest ha hb
    rw [rsIdScan, if_neg (by simp [ha]), rsIdScan, if_pos hb]
  · intro cs h
    rw [rsIdScan_eq_find, h]
    rfl

/-- Witness for C2: among three cross-reference candidates where only
the second is a dbSNP reference, the second one's identifier is
extracted; a candidate list with no dbSNP reference yields null. -/
theorem filtered_first_semantics_witness :
    rsIdScan [xrefOther, xrefSnp, xrefThird] = some "rs2" ∧
    rsIdScan [xrefOther] = none := by
  constructor
  · rw [filtered_first_semantics.2.2.2.1 xrefOther xrefSnp xrefThird []
        (by decide) (by decide)]
    decide
  · exact filtered_first_semantics.2.2.2.2 [xrefOther] rfl

/-- C3: for every record, the emitted row has exactly one value per
configured output column — the same number of entries as the header
row, namely 12 — in the fixed column order of the writer call. -/
theorem row_shape (va : XMLNode) :
    (extract_row va).length = header.length ∧ (extract_row va).length = 12 :=
  ⟨rfl, rfl⟩

/-- C4: a rule whose sub-path matches no node yields null (both for
text and for attribute extraction) rather than an error; a matched
node lacking the requested text or attribute also yields null; and
the record's row is still produced in full (all 12 entries), so every
subsequent rule still executes. -/
theorem missing_field_null :
    (∀ (e : XMLNode) (p : List Step), e.find p = none →
        get_text e p = none ∧ ∀ a, get_attr e p a = none) ∧
    (∀ (e n : XMLNode) (p : List Step), e.find p = some n → n.text = none →
        get_text e p = none) ∧
    (∀ (e n : XMLNode) (p : List Step) (a : String), e.find p = some n →
        n.get a = none → get_attr e p a = none) ∧
    (∀ va : XMLNode, (extract_row va).length = 12) := by
  refine ⟨?_, ?_, ?_, fun _ => rfl⟩
  · intro e p h
    exact ⟨by rw [get_text, h]; rfl, fun a => by rw [get_attr, h]; rfl⟩
  · intro e n p h hn
    rw [get_text, h]
    exact hn
  · intro e n p a h hn
    rw [get_attr, h]
    exact hn

/-- Witness for C4: on a record with no nodes below the root, the
cross-reference sub-path misses and both extraction forms yield
null. -/
theorem missing_field_null_witness :
    get_text emptyRec xrefPath = none ∧ get_attr emptyRec xrefPath "ID" = none := by
  have h := missing_field_null.1 emptyRec xrefPath rfl
  exact ⟨h.1, h.2 "ID"⟩

/-- C5: scope containment — every node any rule's path yields for a
record is the record root itself or one of its descendants, so no
value is ever produced from a node outside the record's subtree. -/
theorem findall_scope (va : XMLNode) (p : List Step) (x : XMLNode)
    (h : x ∈ va.findall p) : x = va ∨ x ∈ va.descendants :=
  findallSteps_scope p [va] va (fun m hm => Or.inl (by simpa using hm)) x h

/-- Witness for C5: the node the cross-reference path selects on a
concrete record is inside that record's subtree. -/
theorem findall_scope_witness :
    xrefSnp = scopeRec ∨ xrefSnp ∈ scopeRec.descendants :=
  findall_scope scopeRec xrefPath xrefSnp (List.Mem.head _)

/-- C6: with the traversal's retained-node set modelled as explicit
state (document root, plus the cleared previous record root still
attached until the next sibling-deletion pass, plus the current
record's subtree), every per-record peak retained count is bounded by
the largest single record's size plus the constant 2 — a bound
independent of how many records the document holds. -/
theorem memory_bound (records : List XMLNode) (p : Nat)
    (hp : p ∈ retainedTrace 0 records) :
    p ≤ 2 + (records.map nodeCount).foldr max 0 :=
  retainedTrace_bound records 0 (by omega) p hp

/-- Witness for C6: the peak retained count while processing a
one-record stream holding the concrete scenario record (5 nodes) is
6, within the bound 2 + 5. -/
theorem memory_bound_witness :
    6 ≤ 2 + ([c1rec].map nodeCount).foldr max 0 :=
  memory_bound [c1rec] 6 (by decide)

/-- C7: a stream that ends before the current record closes fails
with `TruncatedInput`; the rows of all records that completed before
the truncation point were already emitted, in document order, and no
row at all is emitted for the incomplete record (exactly one row per
complete record). -/
theorem truncation_behaviour (records : List XMLNode) :
    runExtractor records true =
      RunResult.truncatedInput (records.map extract_row) ∧
    (records.map extract_row).length = records.length := by
  refine ⟨?_, records.length_map extract_row⟩
  induction records with
  | nil => rfl
  | cons r rest ih => rw [runExtractor, ih]; rfl

/-- C8: the generic declarative evaluator, run on the ClinVar rule
list, emits exactly the row the hard-coded per-field extraction
emits, for every record subtree — the per-field loops refine one
rule-list-parameterized engine. -/
theorem generic_evaluator_refines (va : XMLNode) :
    evalRules clinvarRules va = extract_row va := by
  simp only [evalRules, clinvarRules, List.map_cons, List.map_nil, extract_row,
    List.cons.injEq, and_true]
  refine ⟨rfl, ?_, ?_, ?_, ?_, ?_, ?_, ?_, ?_, ?_, ?_, ?_⟩
  · rw [evalRule, rulePred_single, rsIdOf, rsIdScan_eq_find]; rfl
  · rw [evalRule_nofilter]; rfl
  · rw [evalRule_nofilter]; rfl
  · rw [evalRule_nofilter]; rfl
  · rw [evalRule, rulePred_single, chromOf, grch38Scan_fst]; rfl
  · rw [evalRule, rulePred_single, posOf, grch38Scan_snd]; rfl
  · rw [evalRule_nofilter]; rfl
  · rw [evalRule, rulePred_single, diseaseNameOf, diseaseScan_eq_find]; rfl
  · rw [evalRule_nofilter]; rfl
  · rw [evalRule_nofilter]; rfl
  · rw [evalRule, rulePred_pair, mimDiseaseOf, mimDiseaseScan_eq_find]; rfl

/-- C9: every emitted row carries a species value — the text of the
record root's direct Species child, null when absent — sitting
between disease_name and mim_gene; it is an additional column beyond
the spec's reference column set (which lists 11 columns and no
species), making the emitted rows 12 columns wide. -/
theorem species_column (va : XMLNode) :
    header.length = 12 ∧ specColumns.length = 11 ∧
    ¬ "species" ∈ specColumns ∧
    header = specColumns.take 9 ++ "species" :: specColumns.drop 9 ∧
    (extract_row va).get? 9 = some (speciesOf va) ∧
    speciesOf va = (va.find [Step.child "Species"]).bind XMLNode.text ∧
    (extract_row va).get? 8 = some (diseaseNameOf va) ∧
    (extract_row va).get? 10 = some (mimGeneOf va) :=
  ⟨rfl, rfl, by decide, by decide, rfl, rfl, rfl, rfl⟩

/-- C10: chromosome and position are both read from the single first
GRCh38 sequence location in document order — the scan stops there
even when that node lacks the `Chr` or `start` attribute (yielding
null), so later GRCh38 locations are never consulted; with no GRCh38
location at all, both values are null. -/
theorem grch38_single_node :
    (∀ (va : XMLNode) (pre : List XMLNode) (l : XMLNode) (post : List XMLNode),
        va.findall seqLocPath = pre ++ l :: post →
        (∀ m ∈ pre, (m.get "Assembly" == some "GRCh38") = false) →
        (l.get "Assembly" == some "GRCh38") = true →
        chromOf va = l.get "Chr" ∧ posOf va = l.get "start") ∧
    (∀ va : XMLNode,
        (va.findall seqLocPath).find?
            (fun l => l.get "Assembly" == some "GRCh38") = none →
        chromOf va = none ∧ posOf va = none) := by
  constructor
  · intro va pre l post hEq hpre hl
    constructor
    · rw [chromOf, grch38Scan_fst, hEq, find?_first_sat pre l post hpre hl]
      rfl
    · rw [posOf, grch38Scan_snd, hEq, find?_first_sat pre l post hpre hl]
      rfl
  · intro va h
    exact ⟨by rw [chromOf, grch38Scan_fst, h]; rfl,
           by rw [posOf, grch38Scan_snd, h]; rfl⟩

/-- Witness for C10: on a record whose first GRCh38 location lacks
`Chr` and `start` while a later GRCh38 location carries both,
chromosome and position are both null — the later node is never
consulted. -/
theorem grch38_single_node_witness :
    chromOf gapRec = none ∧ posOf gapRec = none := by
  have h := grch38_single_node.1 gapRec [] gapLoc1 [gapLoc2] rfl
    (by intro m hm; cases hm) (by decide)
  refine ⟨?_, ?_⟩
  · rw [h.1]; rfl
  · rw [h.2]; rfl
